import Mathlib

/- Verification development for the slabmetrics cards static-site
   generator (scripts/build-cards.js): the numeric normalization
   helpers, grade computation, record validation, the per-record build
   loop, the JSON loader error policy, and the template substitution
   round trip are embedded below and their specified properties are
   settled as theorems. -/

/-! ## JavaScript value model

JavaScript numbers are idealized as rationals; the only non-finite
value the helpers ever produce or test for is NaN. -/

/-- Model of the JavaScript values flowing through build-cards.js:
undefined, null, NaN, finite numbers (as rationals), and strings. -/
inductive JVal where
  | undef
  | null
  | nan
  | num (q : ℚ)
  | str (s : String)
  deriving DecidableEq

/-- JavaScript truthiness: undefined, null, NaN, 0 and the empty string
are falsy; every other value here is truthy. -/
def jsTruthy : JVal → Bool
  | .undef => false
  | .null => false
  | .nan => false
  | .num q => q != 0
  | .str s => s != ""

/-- JavaScript nullish coalescing, a ?? b. -/
def jvNullish (a b : JVal) : JVal :=
  match a with
  | .undef => b
  | .null => b
  | x => x

/-- JavaScript logical or, a || b. -/
def jvOr (a b : JVal) : JVal := if jsTruthy a then a else b

/-- JavaScript loose inequality against null, x != null: false exactly
for null and undefined. -/
def looseNeqNull : JVal → Bool
  | .undef => false
  | .null => false
  | _ => true

/-! ## Decimal digits -/

/-- Numeric value of a decimal digit character. -/
def digitVal (c : Char) : Nat := c.toNat - 48

/-- Decimal digit character for a value below ten. -/
def digitOf : Nat → Char
  | 0 => '0'
  | 1 => '1'
  | 2 => '2'
  | 3 => '3'
  | 4 => '4'
  | 5 => '5'
  | 6 => '6'
  | 7 => '7'
  | 8 => '8'
  | 9 => '9'
  | _ => '0'

/-- Value of a string of decimal digit characters. -/
def digitsVal (ds : List Char) : Nat := ds.foldl (fun a c => 10 * a + digitVal c) 0

/-- Value of the fractional digits written after a decimal point. -/
def fracVal (ds : List Char) : ℚ := (digitsVal ds : ℚ) / ((10 : ℚ) ^ ds.length)

/-- Decimal digit characters of a natural number, most significant
first; the first argument is recursion fuel (any value above the number
itself is enough). -/
def natDecAux : Nat → Nat → List Char
  | 0, _ => []
  | fuel + 1, n => if n < 10 then [digitOf n] else natDecAux fuel (n / 10) ++ [digitOf (n % 10)]

/-- Decimal digit characters of a natural number. -/
def natDecChars (n : Nat) : List Char := natDecAux (n + 1) n

/-- Decimal string of a natural number. -/
def natDec (n : Nat) : String := ⟨natDecChars n⟩

/-- Decimal string of an integer. -/
def intDec (i : ℤ) : String := if i < 0 then "-" ++ natDec i.natAbs else natDec i.natAbs

/-! ## Numeric conversions from build-cards.js and the JS builtins they
call -/

/-- Parse of an unsigned decimal literal covering the whole character
list: digits, optionally followed by a point and more digits. -/
def parseUnsigned (cs : List Char) : Option ℚ :=
  let int := cs.takeWhile Char.isDigit
  let r1 := cs.dropWhile Char.isDigit
  match r1 with
  | [] => if int = [] then none else some (digitsVal int)
  | '.' :: r2 =>
    let frac := r2.takeWhile Char.isDigit
    let r3 := r2.dropWhile Char.isDigit
    if r3 = [] then
      if int = [] ∧ frac = [] then none
      else some ((digitsVal int : ℚ) + fracVal frac)
    else none
  | _ => none

/-- Strict numeric parse of a whole trimmed string, as JS Number() does
on strings: optional sign then a plain decimal literal. Exponent and hex
forms are not modelled; they do not occur in this build. -/
def parseStrictNum : List Char → Option ℚ
  | '+' :: cs => parseUnsigned cs
  | '-' :: cs => (parseUnsigned cs).map (fun q => -q)
  | cs => parseUnsigned cs

/-- JS Number() on a string: trims, the empty string is 0, otherwise the
strict parse; none models NaN. -/
def jsStrToNum (s : String) : Option ℚ :=
  let t := s.trim
  if t = "" then some 0 else parseStrictNum t.data

/-- JS Number() conversion of a value; none models NaN. -/
def jsNumberOpt : JVal → Option ℚ
  | .undef => none
  | .null => some 0
  | .nan => none
  | .num q => some q
  | .str s => jsStrToNum s

/-- JS Number() conversion packaged back as a value. -/
def jsNumber (v : JVal) : JVal :=
  match jsNumberOpt v with
  | none => .nan
  | some q => .num q

/-- JS parseFloat on a character list that the call sites have already
stripped down to digits and points: value of the longest numeric prefix,
none (NaN) when no digits start it. -/
def jsParseFloat (cs : List Char) : Option ℚ :=
  let int := cs.takeWhile Char.isDigit
  let r1 := cs.dropWhile Char.isDigit
  match r1 with
  | '.' :: r2 =>
    let frac := r2.takeWhile Char.isDigit
    if int = [] ∧ frac = [] then none
    else some ((digitsVal int : ℚ) + fracVal frac)
  | _ => if int = [] then none else some (digitsVal int)

/-- The replace(/[^0-9.]/g, ...) strip used by toNumLoose and
toRate0to100. -/
def stripNonNumDot (s : String) : List Char := s.data.filter (fun c => c.isDigit || c = '.')

/-- JS Math.round: round half toward positive infinity. -/
def jsRound (q : ℚ) : ℤ := ⌊q + 1 / 2⌋

/-- build-cards.js pctOf10 (lines 27-31): 0-10 grade to a 0-100 integer,
clamped; non-finite input gives 0. -/
def pctOf10 (x : JVal) : ℤ :=
  match jsNumberOpt x with
  | none => 0
  | some v => max 0 (min 100 (jsRound (v / 10 * 100)))

/-- build-cards.js avg (lines 32-37). The argument is the list of values
involved (the array argument itself, or Object.values of an object
argument); values map through Number, non-finite results drop out, the
mean is rounded to one decimal by toFixed(1) and converted back by the
unary plus. An empty surviving list gives 0. -/
def avg (values : List JVal) : ℚ :=
  let nums := values.filterMap jsNumberOpt
  if nums = [] then 0
  else (jsRound (nums.foldl (· + ·) 0 / (nums.length : ℚ) * 10) : ℚ) / 10

/-- build-cards.js oneDec (lines 38-42): one-decimal display string of a
number, empty string for non-finite input. -/
def oneDec (n : JVal) : String :=
  match jsNumberOpt n with
  | none => ""
  | some v =>
    let k := jsRound (v * 10)
    (if k < 0 then "-" else "") ++ natDec (k.natAbs / 10) ++ "." ++ natDec (k.natAbs % 10)

/-- build-cards.js toPct0to100 (lines 47-53). Inputs of at most 1 are
scaled by 100 and rounded, larger inputs are rounded as given. Despite
the comment in the source (normalize to 0..100 integer) no clamping is
performed. -/
def toPct0to100 (n : JVal) : ℤ :=
  if n = .undef ∨ n = .null ∨ n = .str "" then 0
  else
    match jsNumberOpt n with
    | none => 0
    | some v => if v ≤ 1 then jsRound (v * 100) else jsRound v

/-- build-cards.js toNumLoose (lines 57-63). CSV fields reach it as
strings or undefined, hence the Option String argument. -/
def toNumLoose (n : Option String) (d : ℚ) : ℚ :=
  match n with
  | none => d
  | some s =>
    if s = "" then d
    else
      match jsParseFloat (stripNonNumDot s) with
      | none => d
      | some v => v

/-- build-cards.js toRate0to100 (lines 64-73). CSV fields reach it as
strings or undefined, hence the Option String argument. A percent sign
selects the clamped (but unrounded) branch; otherwise fractions up to 1
are scaled by 100 and rounded, larger values rounded unclamped. -/
def toRate0to100 (n : Option String) (d : ℚ) : ℚ :=
  match n with
  | none => d
  | some s =>
    if s = "" then d
    else
      let raw := s.trim
      match jsParseFloat (stripNonNumDot raw) with
      | none => d
      | some v =>
        if raw.data.contains '%' then max 0 (min 100 v)
        else if v ≤ 1 then (jsRound (v * 100) : ℚ) else (jsRound v : ℚ)

/-- Fractional digit expansion of a rational in [0, 1), fuel-bounded. -/
def fracDigits : Nat → ℚ → List Char
  | 0, _ => []
  | fuel + 1, q =>
    if q = 0 then []
    else digitOf ⌊q * 10⌋.toNat :: fracDigits fuel (q * 10 - (⌊q * 10⌋ : ℚ))

/-- Models the JS String() conversion for the values the build writes
into paths and attributes. Integers print exactly as in JS; for
non-integral numbers up to 17 fractional digits are printed (JS prints
the shortest round-tripping form; no theorem below leans on that case). -/
def jsDisplayString : JVal → String
  | .undef => "undefined"
  | .null => "null"
  | .nan => "NaN"
  | .str s => s
  | .num q =>
    if q.den = 1 then intDec q.num
    else
      (if q < 0 then "-" else "") ++ natDec ⌊|q|⌋.toNat ++ "." ++ ⟨fracDigits 17 (|q| - (⌊|q|⌋ : ℚ))⟩

/-! ## Card records

One unified record type covering both source shapes (CSV rows are
normalized into it by csvRowToCard below; JSON records populate it
directly). Absent object fields are JVal.undef; the absent
corners/edges mappings are none. -/

/-- The comparison distribution blob, modelled as a string-to-count
mapping (an ordered association list, matching JSON object order). -/
abbrev DistMap := List (String × Nat)

/-- Per-side subgrade data: single grades, optional precomputed
corner/edge averages, optional corner/edge sub-measurement mappings
(none models an absent or null field, otherwise the list of its
values), and remark strings. -/
structure Side where
  surface : JVal := .undef
  centering : JVal := .undef
  corners_avg : JVal := .undef
  edges_avg : JVal := .undef
  corners : Option (List JVal) := none
  edges : Option (List JVal) := none
  remarks_surface : JVal := .undef
  remarks_centering : JVal := .undef
  remarks_corners : JVal := .undef
  remarks_edges : JVal := .undef
  deriving DecidableEq

/-- The optional explicit display percentages (CSV pcts fields). -/
structure Pcts where
  f_surface_pct : JVal := .undef
  f_centering_pct : JVal := .undef
  f_corners_pct : JVal := .undef
  f_edges_pct : JVal := .undef
  b_surface_pct : JVal := .undef
  b_centering_pct : JVal := .undef
  b_corners_pct : JVal := .undef
  b_edges_pct : JVal := .undef
  deriving DecidableEq

/-- Origin tag set by the loaders. -/
inductive Origin where
  | csv
  | json
  deriving DecidableEq

/-- The unified card record. -/
structure Card where
  origin : Origin := .json
  id : JVal := .undef
  player : JVal := .undef
  set : JVal := .undef
  number : JVal := .undef
  variant : JVal := .undef
  serial : JVal := .undef
  team : JVal := .undef
  sport : JVal := .undef
  graded_at : JVal := .undef
  images_front : JVal := .undef
  images_back : JVal := .undef
  front_img : JVal := .undef
  back_img : JVal := .undef
  edge_img : JVal := .undef
  links_ebay : JVal := .undef
  grade_overall : JVal := .undef
  overall_pct_csv : JVal := .undef
  weights_front : JVal := .undef
  weights_back : JVal := .undef
  sub_front : Side := {}
  sub_back : Side := {}
  pcts : Pcts := {}
  pops_psa : JVal := .undef
  pops_sgc : JVal := .undef
  pops_cgc : JVal := .undef
  pops_bgs : JVal := .undef
  gem_psa : JVal := .undef
  gem_sgc : JVal := .undef
  gem_cgc : JVal := .undef
  gem_bgs : JVal := .undef
  compare_distribution : Option DistMap := none
  deriving DecidableEq

/-! ## Grade computation (build-cards.js lines 252-276) -/

/-- Result of computeGrades. -/
structure Grades where
  fCornersAvg : JVal
  fEdgesAvg : JVal
  bCornersAvg : JVal
  bEdgesAvg : JVal
  fSection : ℚ
  bSection : ℚ
  overall : String
  deriving DecidableEq

/-- build-cards.js computeGrades (lines 252-276): precomputed
corner/edge averages are used verbatim when present (loosely non-null),
else computed by avg over the sub-measurement mapping; section averages
are avg of the four side values; the overall grade uses the explicit
grade_overall when loosely non-null, else the weighted section
combination with weights defaulting to 0.8/0.2; the overall is returned
through oneDec. -/
def computeGrades (c : Card) : Grades :=
  let f := c.sub_front
  let b := c.sub_back
  let fCornersAvg := if looseNeqNull f.corners_avg then jsNumber f.corners_avg
    else .num (avg (f.corners.getD []))
  let fEdgesAvg := if looseNeqNull f.edges_avg then jsNumber f.edges_avg
    else .num (avg (f.edges.getD []))
  let bCornersAvg := if looseNeqNull b.corners_avg then jsNumber b.corners_avg
    else .num (avg (b.corners.getD []))
  let bEdgesAvg := if looseNeqNull b.edges_avg then jsNumber b.edges_avg
    else .num (avg (b.edges.getD []))
  let fSection := avg [f.surface, f.centering, fCornersAvg, fEdgesAvg]
  let bSection := avg [b.surface, b.centering, bCornersAvg, bEdgesAvg]
  let wf := jsNumberOpt (jvNullish c.weights_front (.num (8 / 10)))
  let wb := jsNumberOpt (jvNullish c.weights_back (.num (2 / 10)))
  let overallVal : JVal :=
    if looseNeqNull c.grade_overall then jsNumber c.grade_overall
    else
      match wf, wb with
      | some a, some bq => .num (a * fSection + bq * bSection)
      | _, _ => .nan
  { fCornersAvg := fCornersAvg, fEdgesAvg := fEdgesAvg,
    bCornersAvg := bCornersAvg, bEdgesAvg := bEdgesAvg,
    fSection := fSection, bSection := bSection,
    overall := oneDec overallVal }

/-! ## The rendered fields of a detail page (build-cards.js lines
309-396) -/

/-- The overall grade string substituted into the page (lines 319-321):
explicit grade_overall when loosely non-null and not the empty string,
else the computed overall. -/
def renderedOverall (c : Card) : String :=
  if looseNeqNull c.grade_overall ∧ c.grade_overall ≠ JVal.str "" then oneDec c.grade_overall
  else (computeGrades c).overall

/-- The overall_pct substituted into the page (lines 323-327): the CSV
overall_pct when loosely non-null with non-blank string form, else
derived from the overall grade string through pctOf10. -/
def renderedOverallPct (c : Card) : ℤ :=
  if looseNeqNull c.overall_pct_csv ∧ (jsDisplayString c.overall_pct_csv).trim ≠ "" then
    toPct0to100 c.overall_pct_csv
  else pctOf10 (.str (renderedOverall c))

/-- One bar percentage (the pattern of lines 365-372): the explicit
pcts value wins when loosely non-null and not the empty string and is
normalized by toPct0to100; otherwise the fallback grade goes through
pctOf10. -/
def barPct (pv fallback : JVal) : ℤ :=
  if looseNeqNull pv ∧ pv ≠ JVal.str "" then toPct0to100 pv else pctOf10 fallback

/-- The eight bar percentages of a detail page. -/
structure BarPcts where
  f_surface : ℤ
  f_centering : ℤ
  f_corners : ℤ
  f_edges : ℤ
  b_surface : ℤ
  b_centering : ℤ
  b_corners : ℤ
  b_edges : ℤ
  deriving DecidableEq

/-- The eight bar percentages substituted into the page (lines
365-372). -/
def renderedPcts (c : Card) : BarPcts :=
  let g := computeGrades c
  { f_surface := barPct c.pcts.f_surface_pct c.sub_front.surface,
    f_centering := barPct c.pcts.f_centering_pct c.sub_front.centering,
    f_corners := barPct c.pcts.f_corners_pct g.fCornersAvg,
    f_edges := barPct c.pcts.f_edges_pct g.fEdgesAvg,
    b_surface := barPct c.pcts.b_surface_pct c.sub_back.surface,
    b_centering := barPct c.pcts.b_centering_pct c.sub_back.centering,
    b_corners := barPct c.pcts.b_corners_pct g.bCornersAvg,
    b_edges := barPct c.pcts.b_edges_pct g.bEdgesAvg }

/-! ## Validation and the build loop -/

/-- build-cards.js validateCard (lines 224-250). The console warnings
about path style and casing do not enter the returned error list and
are not modelled. -/
def validateCard (c : Card) : List String :=
  (if jsTruthy c.id then [] else ["missing id"]) ++
    (let front := jvOr c.images_front c.front_img
     let back := jvOr c.images_back c.back_img
     if jsTruthy front && jsTruthy back then [] else ["missing images.front/back"])

/-- Resolved front image (lines 229 and 330). -/
def resolvedFront (c : Card) : JVal := jvOr c.images_front c.front_img

/-- Resolved back image (lines 230 and 331). -/
def resolvedBack (c : Card) : JVal := jvOr c.images_back c.back_img

/-- The string form of the id used in output paths and hrefs. -/
def idString (c : Card) : String := jsDisplayString c.id

/-- Detail page output path (line 399), relative to dist/. -/
def outPath (c : Card) : String := "cards/" ++ idString c ++ ".html"

/-- An index tile (lines 403-412). -/
structure Tile where
  id : JVal
  href : String
  img : JVal
  player : JVal
  set : JVal
  number : JVal
  variant : JVal
  serial : JVal
  deriving DecidableEq

/-- Tile pushed for a successfully rendered card (lines 403-412). -/
def tileOf (c : Card) : Tile :=
  { id := c.id,
    href := "/cards/" ++ idString c ++ ".html",
    img := resolvedFront c,
    player := c.player,
    set := c.set,
    number := c.number,
    variant := jvNullish c.variant (.str ""),
    serial := jvNullish c.serial (.str "") }

/-- Accumulated effect of the build loop: detail page writes (path and
content, in order) and index tiles. -/
structure BuildOut where
  writes : List (String × String)
  tiles : List Tile
  deriving DecidableEq

/-- One iteration of the per-record loop (lines 309-413): a record with
validation errors is skipped, otherwise its page is written and its
tile appended. The detail rendering is abstracted as the render
argument. -/
def buildStep (render : Card → String) (acc : BuildOut) (c : Card) : BuildOut :=
  if validateCard c = [] then
    { writes := acc.writes ++ [(outPath c, render c)], tiles := acc.tiles ++ [tileOf c] }
  else acc

/-- The whole per-record loop over the loaded sequence. -/
def buildOutputs (render : Card → String) (cards : List Card) : BuildOut :=
  cards.foldl (buildStep render) { writes := [], tiles := [] }

/-- Record order of the combined sources (line 294): CSV records come
before JSON records. -/
def combineCards (csvCards jsonCards : List Card) : List Card := csvCards ++ jsonCards

/-- The count substituted into the index template (line 429): the
number of collected tiles. -/
def indexCount (render : Card → String) (cards : List Card) : Nat :=
  (buildOutputs render cards).tiles.length

/-! ## CSV loader (build-cards.js lines 108-221) -/

/-- One parsed CSV row, header-keyed; csv-parse with trim gives trimmed
string fields, and none models a column absent from the header. -/
structure CsvRow where
  id : Option String := none
  player : Option String := none
  set : Option String := none
  number : Option String := none
  variant : Option String := none
  serial : Option String := none
  graded_at : Option String := none
  team : Option String := none
  edge_img : Option String := none
  front_img : Option String := none
  back_img : Option String := none
  ebay : Option String := none
  overall_grade : Option String := none
  overall_pct : Option String := none
  f_surface : Option String := none
  f_centering : Option String := none
  f_corners_avg : Option String := none
  f_edges_avg : Option String := none
  f_remarks_surface : Option String := none
  f_remarks_centering : Option String := none
  f_remarks_corners : Option String := none
  f_remarks_edges : Option String := none
  b_surface : Option String := none
  b_centering : Option String := none
  b_corners_avg : Option String := none
  b_edges_avg : Option String := none
  b_remarks_surface : Option String := none
  b_remarks_centering : Option String := none
  b_remarks_corners : Option String := none
  b_remarks_edges : Option String := none
  f_surface_pct : Option String := none
  f_centering_pct : Option String := none
  f_corners_pct : Option String := none
  f_edges_pct : Option String := none
  b_surface_pct : Option String := none
  b_centering_pct : Option String := none
  b_corners_pct : Option String := none
  b_edges_pct : Option String := none
  psa_pop : Option String := none
  sgc_pop : Option String := none
  cgc_pop : Option String := none
  bgs_pop : Option String := none
  psa_gem_rate : Option String := none
  sgc_gem_rate : Option String := none
  cgc_gem_rate : Option String := none
  bgs_gem_rate : Option String := none
  deriving DecidableEq

/-- A CSV field as a JVal: absent column is undefined. -/
def jvOfCsv : Option String → JVal
  | none => .undef
  | some s => .str s

/-- The id a CSV row receives (line 123): trimmed id column, or the
literal UNKNOWN when that is empty or the column is absent. -/
def csvRowId (r : CsvRow) : String :=
  let t := (r.id.getD "").trim
  if t = "" then "UNKNOWN" else t

/-- The regex strip of an edge path prefix, replace of a leading
optional dot, optional slash, then the literal edge/ (line 138). -/
def stripEdgePrefix (s : String) : String :=
  if s.startsWith "./edge/" then s.drop 7
  else if s.startsWith ".edge/" then s.drop 6
  else if s.startsWith "/edge/" then s.drop 6
  else if s.startsWith "edge/" then s.drop 5
  else s

/-- Edge image resolution for a CSV row (lines 136-139). -/
def csvEdgeImg (id : String) (v : Option String) : String :=
  match v with
  | none => "/edge/" ++ id ++ ".jpg"
  | some s =>
    if s.trim ≠ "" then
      if s.startsWith "/" then s else "/edge/" ++ stripEdgePrefix s
    else "/edge/" ++ id ++ ".jpg"

/-- Front or back image resolution for a CSV row (lines 141-148): the
given value when truthy with a truthy trim, else the placeholder. -/
def csvImg (v : Option String) (placeholder : String) : String :=
  match v with
  | none => placeholder
  | some s => if s.trim ≠ "" then s else placeholder

/-- build-cards.js loadCSVCards row mapping (lines 122-218); today is
the value todayISO() returns at build time. -/
def csvRowToCard (today : String) (r : CsvRow) : Card :=
  let id := csvRowId r
  { origin := .csv,
    id := .str id,
    player := .str (r.player.getD ""),
    set := .str (r.set.getD ""),
    number := .str (r.number.getD ""),
    variant := .str (r.variant.getD ""),
    serial := .str (r.serial.getD ""),
    graded_at :=
      if (r.graded_at.getD "").trim ≠ "" then .str (r.graded_at.getD "") else .str today,
    team := .str (r.team.getD ""),
    images_front := .str (csvImg r.front_img "https://via.placeholder.com/420x588?text=Front"),
    images_back := .str (csvImg r.back_img "https://via.placeholder.com/420x588?text=Back"),
    edge_img := .str (csvEdgeImg id r.edge_img),
    links_ebay := .str (if (r.ebay.getD "") = "" then "#" else r.ebay.getD ""),
    grade_overall :=
      if (r.overall_grade.getD "").trim ≠ "" then jsNumber (.str (r.overall_grade.getD ""))
      else .undef,
    overall_pct_csv := jvOfCsv r.overall_pct,
    weights_front := .undef,
    weights_back := .undef,
    sub_front :=
      { surface := jvOfCsv r.f_surface,
        centering := jvOfCsv r.f_centering,
        corners_avg := jvOfCsv r.f_corners_avg,
        edges_avg := jvOfCsv r.f_edges_avg,
        corners := none,
        edges := none,
        remarks_surface := jvOfCsv r.f_remarks_surface,
        remarks_centering := jvOfCsv r.f_remarks_centering,
        remarks_corners := jvOfCsv r.f_remarks_corners,
        remarks_edges := jvOfCsv r.f_remarks_edges },
    sub_back :=
      { surface := jvOfCsv r.b_surface,
        centering := jvOfCsv r.b_centering,
        corners_avg := jvOfCsv r.b_corners_avg,
        edges_avg := jvOfCsv r.b_edges_avg,
        corners := none,
        edges := none,
        remarks_surface := jvOfCsv r.b_remarks_surface,
        remarks_centering := jvOfCsv r.b_remarks_centering,
        remarks_corners := jvOfCsv r.b_remarks_corners,
        remarks_edges := jvOfCsv r.b_remarks_edges },
    pcts :=
      { f_surface_pct := jvOfCsv r.f_surface_pct,
        f_centering_pct := jvOfCsv r.f_centering_pct,
        f_corners_pct := jvOfCsv r.f_corners_pct,
        f_edges_pct := jvOfCsv r.f_edges_pct,
        b_surface_pct := jvOfCsv r.b_surface_pct,
        b_centering_pct := jvOfCsv r.b_centering_pct,
        b_corners_pct := jvOfCsv r.b_corners_pct,
        b_edges_pct := jvOfCsv r.b_edges_pct },
    pops_psa := .num (toNumLoose r.psa_pop 0),
    pops_sgc := .num (toNumLoose r.sgc_pop 0),
    pops_cgc := .num (toNumLoose r.cgc_pop 0),
    pops_bgs := .num (toNumLoose r.bgs_pop 0),
    gem_psa := .num (toRate0to100 r.psa_gem_rate 0),
    gem_sgc := .num (toRate0to100 r.sgc_gem_rate 0),
    gem_cgc := .num (toRate0to100 r.cgc_gem_rate 0),
    gem_bgs := .num (toRate0to100 r.bgs_gem_rate 0),
    compare_distribution := some [] }

/-- All cards of the chosen CSV file, in row order. -/
def loadCSVCards (today : String) (rows : List CsvRow) : List Card :=
  rows.map (csvRowToCard today)

/-! ## JSON loader (build-cards.js lines 75-106) -/

/-- A parsed JSON document: an array of records or a single record.
JSON.parse itself is external; its outcome is the input here. -/
inductive JsonDoc where
  | arr (cs : List Card)
  | single (c : Card)

/-- Flattening of a parsed document (lines 95 and 103). -/
def docToCards : JsonDoc → List Card
  | .arr cs => cs
  | .single c => [c]

/-- Origin tag applied to every JSON-loaded record (line 105). -/
def setOriginJson (c : Card) : Card := { c with origin := .json }

/-- The JSON side of the data directory, abstracting the filesystem and
JSON.parse: aggregate is data/cards.json when that file exists, as its
raw text together with its parse outcome; fallback lists the parse
outcomes of the loose .json files, consulted only when the aggregate
file is absent. -/
structure JsonFS where
  aggregate : Option (String × Except String JsonDoc) := none
  fallback : List (Except String JsonDoc) := []

/-- build-cards.js loadJSONCards (lines 75-106). An unparsable
aggregate file is fatal, modelled as the error case carrying the parse
error and a 300-character preview of the raw content (the source prints
both and exits 1); unparsable fallback files are skipped with the scan
continuing. -/
def loadJSONCards (fs : JsonFS) : Except (String × String) (List Card) :=
  match fs.aggregate with
  | some (raw, .error e) => .error (e, raw.take 300)
  | some (_, .ok d) => .ok ((docToCards d).map setOriginJson)
  | none =>
    .ok ((fs.fallback.foldl
      (fun acc r =>
        match r with
        | .ok d => acc ++ docToCards d
        | .error _ => acc) []).map setOriginJson)

/-! ## Template substitution (build-cards.js lines 279-281)

tpl(html, map) replaces every match of a double-brace placeholder
holding one or more word characters with the mapped value (empty string
when unmapped), scanning left to right and never rescanning replaced
text, exactly as String.prototype.replace with a global regex and a
function replacement does. -/

/-- A word character in the placeholder regex. -/
def isWordChar (c : Char) : Bool := c.isAlphanum || c = '_'

/-- The replace scan. The first argument is fuel; the scan consumes at
least one input character per step, so any fuel of at least the input
length is enough. -/
def tplGo (m : String → Option String) : Nat → List Char → List Char
  | 0, _ => []
  | _ + 1, [] => []
  | fuel + 1, c :: cs =>
    if c = '{' then
      match cs with
      | '{' :: cs2 =>
        let w := cs2.takeWhile isWordChar
        if w = [] then c :: tplGo m fuel cs
        else
          match cs2.dropWhile isWordChar with
          | '}' :: '}' :: cs4 => ((m ⟨w⟩).getD "").data ++ tplGo m fuel cs4
          | _ => c :: tplGo m fuel cs
      | _ => c :: tplGo m fuel cs
    else c :: tplGo m fuel cs

/-- build-cards.js tpl (lines 279-281). -/
def tpl (html : String) (m : String → Option String) : String :=
  ⟨tplGo m (html.data.length + 1) html.data⟩

/-! ## The embedded comparison JSON (line 395)

compare_json is JSON.stringify of the compare.distribution mapping.
JSON.stringify and JSON.parse are modelled for the string-to-count
mappings DistMap covers: stringify emits the canonical compact object
text, parse reads exactly that grammar back. -/

/-- Characters of one stringified entry. -/
def entryChars1 (kv : String × Nat) : List Char :=
  '"' :: kv.1.data ++ '"' :: ':' :: natDecChars kv.2

/-- Characters of the stringified entry list, comma separated. -/
def entriesChars : DistMap → List Char
  | [] => []
  | [kv] => entryChars1 kv
  | kv :: rest => entryChars1 kv ++ ',' :: entriesChars rest

/-- Models JSON.stringify on a string-to-count mapping: the compact
object text with unescaped keys (every theorem about it restricts keys
to characters that need no escaping). -/
def jsonStringify (d : DistMap) : String :=
  ⟨'{' :: entriesChars d ++ ['}']⟩

/-- Key characters that survive stringification verbatim: anything but
the double quote and the backslash (and, for fidelity of the parse
model, control characters are also excluded by the witnesses). -/
def cleanKey (s : String) : Prop := ∀ c ∈ s.data, c ≠ '"' ∧ c ≠ '\\'

instance (s : String) : Decidable (cleanKey s) := by
  unfold cleanKey; infer_instance

/-- Parse of a key body after its opening quote: the characters up to
the closing quote. -/
def parseKeyChars : List Char → Option (List Char × List Char)
  | [] => none
  | c :: rest =>
    if c = '"' then some ([], rest)
    else
      match parseKeyChars rest with
      | some (k, r) => some (c :: k, r)
      | none => none

/-- Parse of the entry list of a non-empty object, positioned right
after the opening brace or a separating comma; fuel bounds the number
of entries. -/
def parseEntries : Nat → List Char → Option (DistMap × List Char)
  | 0, _ => none
  | fuel + 1, cs =>
    match cs with
    | '"' :: rest =>
      match parseKeyChars rest with
      | some (k, r1) =>
        match r1 with
        | ':' :: r2 =>
          let ds := r2.takeWhile Char.isDigit
          let r3 := r2.dropWhile Char.isDigit
          if ds = [] then none
          else
            match r3 with
            | ',' :: r4 =>
              match parseEntries fuel r4 with
              | some (d, r) => some ((⟨k⟩, digitsVal ds) :: d, r)
              | none => none
            | '}' :: r4 => some ([(⟨k⟩, digitsVal ds)], r4)
            | _ => none
        | _ => none
      | none => none
    | _ => none

/-- Models JSON.parse on the texts jsonStringify emits: the whole
string must be one object of string keys and count values. -/
def jsonParse (s : String) : Option DistMap :=
  match s.data with
  | c :: cs =>
    if c = '{' then
      match cs with
      | c2 :: cs2 =>
        if c2 = '}' then (if cs2 = [] then some [] else none)
        else
          match parseEntries cs.length cs with
          | some (d, []) => some d
          | _ => none
      | [] => none
    else none
  | [] => none

/-! ## Claim C1 -/

/-- C1: evaluation at the failing inputs. The claim (and the comment on
toPct0to100 in the source) promise an integer clamped to [0,100] for
every input, but toPct0to100 never clamps, the percent-free branch of
toRate0to100 never clamps above 100, and the percent branch of
toRate0to100 clamps without rounding, returning the non-integer 42.5
for the input 42.5%. -/
theorem c1_pct_not_clamped_eval :
    toPct0to100 (.num 150) = 150 ∧ ¬ toPct0to100 (.num 150) ≤ 100 ∧
    toRate0to100 (some "150") 0 = 150 ∧
    toRate0to100 (some "42.5%") 0 = 85 / 2 ∧
    (toRate0to100 (some "42.5%") 0).den ≠ 1 := by
  with_unfolding_all decide

/-! ## Claim C2 -/

/-- A record whose front side has surface 10 and centering 10 and no
corners or edges data at all. -/
def exC2 : Card := { sub_front := { surface := .num 10, centering := .num 10 } }

/-- C2 counterexample: with corners and edges data entirely absent the
front section average is 5.0 (the absent categories enter the mean as
0), not the 10.0 the claim (excluding them from the mean) gives. -/
theorem c2_absent_corners_counterexample :
    (computeGrades exC2).fSection = 5 ∧
    avg [JVal.num 10, JVal.num 10] = 10 ∧ (5 : ℚ) ≠ 10 := by
  with_unfolding_all decide

/-- C2 amended: the section average is avg of exactly the four side
values, avg excludes each value whose Number conversion is non-finite,
and a mean over zero surviving values is 0; but when a side has no
corners (or edges) data at all the derived corner (edge) average is the
finite number 0, which is then included in the section mean rather than
excluded. -/
theorem c2_section_mean (c : Card)
    (hca : c.sub_front.corners_avg = JVal.undef ∨ c.sub_front.corners_avg = JVal.null)
    (hc : c.sub_front.corners = none) :
    (computeGrades c).fSection =
      avg [c.sub_front.surface, c.sub_front.centering,
        (computeGrades c).fCornersAvg, (computeGrades c).fEdgesAvg] ∧
    (computeGrades c).bSection =
      avg [c.sub_back.surface, c.sub_back.centering,
        (computeGrades c).bCornersAvg, (computeGrades c).bEdgesAvg] ∧
    (∀ vs : List JVal, vs.filterMap jsNumberOpt = [] → avg vs = 0) ∧
    (computeGrades c).fCornersAvg = JVal.num 0 := by
  refine ⟨rfl, rfl, ?_, ?_⟩
  · intro vs h
    simp [avg, h]
  · rcases hca with h | h <;> simp [computeGrades, h, hc, looseNeqNull, avg]

/-- C2 witness at the concrete record exC2. -/
theorem c2_section_mean_witness :
    (computeGrades exC2).fCornersAvg = JVal.num 0 :=
  (c2_section_mean exC2 (Or.inl rfl) rfl).2.2.2

/-! ## Claim C3 -/

/-- The strict presence test of lines 365-372: loosely non-null and not
the empty string. -/
def pctProvided (pv : JVal) : Prop := looseNeqNull pv = true ∧ pv ≠ JVal.str ""

instance (pv : JVal) : Decidable (pctProvided pv) := by
  unfold pctProvided; infer_instance

/-- A record whose CSV pcts field carries the percent string 42%. -/
def exC3 : Card :=
  { pcts := { f_surface_pct := .str "42%" }, sub_front := { surface := .num 9 } }

/-- C3 counterexample: the explicit pcts value 42% renders as 0, not as
the 42 that the rate-field normalization (toRate0to100) yields, because
the build normalizes pcts through toPct0to100, whose Number conversion
makes NaN of a percent sign. -/
theorem c3_percent_string_counterexample :
    (renderedPcts exC3).f_surface = 0 ∧
    toRate0to100 (some "42%") 0 = 42 ∧ (0 : ℤ) ≠ 42 := by
  with_unfolding_all decide

/-- C3 amended: explicit pcts values do take precedence over the
derived percentage for every one of the eight bars, but they are
normalized by toPct0to100 (plain Number conversion, fractions up to 1
scaled by 100), not by the percent-string-accepting rate logic; a
string such as 42% therefore renders as 0. -/
theorem c3_explicit_pcts (c : Card) :
    (pctProvided c.pcts.f_surface_pct →
      (renderedPcts c).f_surface = toPct0to100 c.pcts.f_surface_pct) ∧
    (pctProvided c.pcts.f_centering_pct →
      (renderedPcts c).f_centering = toPct0to100 c.pcts.f_centering_pct) ∧
    (pctProvided c.pcts.f_corners_pct →
      (renderedPcts c).f_corners = toPct0to100 c.pcts.f_corners_pct) ∧
    (pctProvided c.pcts.f_edges_pct →
      (renderedPcts c).f_edges = toPct0to100 c.pcts.f_edges_pct) ∧
    (pctProvided c.pcts.b_surface_pct →
      (renderedPcts c).b_surface = toPct0to100 c.pcts.b_surface_pct) ∧
    (pctProvided c.pcts.b_centering_pct →
      (renderedPcts c).b_centering = toPct0to100 c.pcts.b_centering_pct) ∧
    (pctProvided c.pcts.b_corners_pct →
      (renderedPcts c).b_corners = toPct0to100 c.pcts.b_corners_pct) ∧
    (pctProvided c.pcts.b_edges_pct →
      (renderedPcts c).b_edges = toPct0to100 c.pcts.b_edges_pct) := by
  unfold renderedPcts barPct pctProvided
  refine ⟨?_, ?_, ?_, ?_, ?_, ?_, ?_, ?_⟩ <;> intro h <;> simp [h.1, h.2]

/-- A record supplying the fraction string 0.42 as an explicit pcts
field. -/
def exC3w : Card :=
  { pcts := { f_surface_pct := .str "0.42" }, sub_front := { surface := .num 9 } }

/-- C3 witness at the concrete record exC3w. -/
theorem c3_explicit_pcts_witness :
    (renderedPcts exC3w).f_surface = toPct0to100 (JVal.str "0.42") :=
  (c3_explicit_pcts exC3w).1 (by decide)

/-! ## Claim C4 -/

/-- A perfect 10 side, for records exercising the weighted overall. -/
def perfectSide : Side :=
  { surface := .num 10, centering := .num 10, corners_avg := .num 10, edges_avg := .num 10 }

/-- A record with a present-but-empty explicit overall grade and
perfect 10 subgrades on both sides. -/
def exC4 : Card :=
  { grade_overall := .str "", sub_front := perfectSide, sub_back := perfectSide }

/-- C4 counterexample: with grade_overall the empty string (present but
empty, so the claim routes to the weighted-sections formula, which
gives 10.0 here) the rendered overall grade is 0.0, because
computeGrades treats the empty string as explicit and Number of the
empty string is 0. -/
theorem c4_empty_overall_counterexample :
    renderedOverall exC4 = "0.0" ∧
    oneDec (.num (8 / 10 * (computeGrades exC4).fSection +
      2 / 10 * (computeGrades exC4).bSection)) = "10.0" ∧
    ("0.0" : String) ≠ "10.0" := by
  with_unfolding_all decide

/-- C4 amended: an explicit non-empty grade_overall renders verbatim
through oneDec regardless of subgrades and weights; with grade_overall
absent (null or undefined) the rendered overall is the weighted section
combination, using the record weights when numeric and 0.8/0.2 when
absent; but a present-and-empty grade_overall renders as 0.0 rather
than through the weighted formula. -/
theorem c4_overall_precedence (c : Card) :
    (looseNeqNull c.grade_overall = true ∧ c.grade_overall ≠ JVal.str "" →
      renderedOverall c = oneDec c.grade_overall) ∧
    ((c.grade_overall = JVal.undef ∨ c.grade_overall = JVal.null) →
      ∀ wf wb : ℚ, c.weights_front = JVal.num wf → c.weights_back = JVal.num wb →
        renderedOverall c =
          oneDec (.num (wf * (computeGrades c).fSection + wb * (computeGrades c).bSection))) ∧
    ((c.grade_overall = JVal.undef ∨ c.grade_overall = JVal.null) →
      c.weights_front = JVal.undef → c.weights_back = JVal.undef →
      renderedOverall c =
        oneDec (.num (8 / 10 * (computeGrades c).fSection +
          2 / 10 * (computeGrades c).bSection))) ∧
    (c.grade_overall = JVal.str "" → renderedOverall c = "0.0") := by
  refine ⟨?_, ?_, ?_, ?_⟩
  · intro h
    unfold renderedOverall
    rw [if_pos h]
  · intro h wf wb hwf hwb
    rcases h with h | h <;>
      simp [renderedOverall, computeGrades, h, hwf, hwb, jvNullish, jsNumberOpt, looseNeqNull]
  · intro h hwf hwb
    rcases h with h | h <;>
      simp [renderedOverall, computeGrades, h, hwf, hwb, jvNullish, jsNumberOpt, looseNeqNull]
  · intro h
    have hne : ¬ (looseNeqNull c.grade_overall = true ∧ c.grade_overall ≠ JVal.str "") := by
      simp [h]
    unfold renderedOverall
    rw [if_neg hne]
    have hov : (computeGrades c).overall = oneDec (jsNumber (JVal.str "")) := by
      simp [computeGrades, h, looseNeqNull]
    rw [hov]
    with_unfolding_all decide

/-- A record with an explicit numeric overall grade 9.5 and conflicting
subgrades. -/
def exC4w : Card :=
  { grade_overall := .num (19 / 2), sub_front := { surface := .num 2, centering := .num 2 } }

/-- C4 witness at the concrete record exC4w. -/
theorem c4_overall_precedence_witness :
    renderedOverall exC4w = oneDec (JVal.num (19 / 2)) :=
  (c4_overall_precedence exC4w).1 (by decide)

/-! ## Claim C5 -/

/-- C5: pctOf10 is monotone non-decreasing on numbers, always lands in
[0,100], maps 0 to 0 and 10 to 100, computes round(v / 10 x 100)
clamped to [0,100], and yields 0 on the non-finite inputs. -/
theorem c5_pctOf10_props :
    (∀ a b : ℚ, a ≤ b → pctOf10 (.num a) ≤ pctOf10 (.num b)) ∧
    (∀ x : JVal, 0 ≤ pctOf10 x ∧ pctOf10 x ≤ 100) ∧
    pctOf10 (.num 0) = 0 ∧ pctOf10 (.num 10) = 100 ∧
    (∀ v : ℚ, pctOf10 (.num v) = max 0 (min 100 (jsRound (v / 10 * 100)))) ∧
    pctOf10 .nan = 0 ∧ pctOf10 .undef = 0 := by
  refine ⟨?_, ?_, by with_unfolding_all decide, by with_unfolding_all decide,
    fun v => rfl, rfl, rfl⟩
  · intro a b hab
    have hr : jsRound (a / 10 * 100) ≤ jsRound (b / 10 * 100) := by
      unfold jsRound
      exact Int.floor_le_floor (by linarith)
    exact max_le_max le_rfl (min_le_min le_rfl hr)
  · intro x
    unfold pctOf10
    cases jsNumberOpt x with
    | none => simp
    | some v => exact ⟨le_max_left 0 _, max_le (by norm_num) (min_le_left _ _)⟩

/-- C5 witness: monotonicity and the bound applied at concrete
inputs. -/
theorem c5_pctOf10_props_witness :
    pctOf10 (.num 3) ≤ pctOf10 (.num 7) ∧ pctOf10 (.num (19 / 2)) ≤ 100 :=
  ⟨c5_pctOf10_props.1 3 7 (by norm_num), (c5_pctOf10_props.2.1 (.num (19 / 2))).2⟩

/-! ## Claim C6 -/

/-- Strings with equal character data are equal. -/
theorem string_data_inj {s t : String} (h : s.data = t.data) : s = t := by
  cases s; cases t; exact congrArg String.mk h

/-- A record with a falsy (absent or empty) id produces at least one
validation error. -/
theorem validateCard_missing_id (c : Card)
    (h : c.id = JVal.undef ∨ c.id = JVal.null ∨ c.id = JVal.str "") :
    validateCard c ≠ [] := by
  have hid : jsTruthy c.id = false := by
    rcases h with h | h | h <;> simp [h, jsTruthy]
  unfold validateCard
  rw [hid]
  simp

/-- The build loop ignores a record that fails validation. -/
theorem buildStep_invalid (render : Card → String) (acc : BuildOut) (c : Card)
    (h : validateCard c ≠ []) : buildStep render acc c = acc := by
  unfold buildStep
  rw [if_neg h]

/-- C6: a record whose id is absent or empty draws at least one
validation error, contributes no detail page write and no tile, and is
excluded from the index count, while the rest of the sequence builds
exactly as if the record were not there. -/
theorem c6_missing_id_skipped (render : Card → String) (pre post : List Card) (c : Card)
    (h : c.id = JVal.undef ∨ c.id = JVal.null ∨ c.id = JVal.str "") :
    validateCard c ≠ [] ∧
    buildOutputs render (pre ++ c :: post) = buildOutputs render (pre ++ post) ∧
    indexCount render (pre ++ c :: post) = indexCount render (pre ++ post) := by
  have hval := validateCard_missing_id c h
  have houts : buildOutputs render (pre ++ c :: post) = buildOutputs render (pre ++ post) := by
    unfold buildOutputs
    rw [List.foldl_append, List.foldl_append, List.foldl_cons,
      buildStep_invalid render _ c hval]
  exact ⟨hval, houts, by unfold indexCount; rw [houts]⟩

/-- A valid record followed in the sequence by a record with an empty
id. -/
def exC6ok : Card :=
  { id := .str "ok", images_front := .str "/cards/a.jpg", images_back := .str "/cards/b.jpg" }

/-- A record whose id is the empty string. -/
def exC6bad : Card :=
  { id := .str "", images_front := .str "/cards/a.jpg", images_back := .str "/cards/b.jpg" }

/-- C6 witness at a concrete two-record sequence. -/
theorem c6_missing_id_skipped_witness :
    buildOutputs (fun _ => "page") ([exC6ok] ++ exC6bad :: []) =
      buildOutputs (fun _ => "page") ([exC6ok] ++ []) :=
  (c6_missing_id_skipped (fun _ => "page") [exC6ok] [] exC6bad (Or.inr (Or.inr rfl))).2.1

/-! ## Claim C7 -/

/-- Character data of an appended string. -/
theorem data_append_eq (s t : String) : (s ++ t).data = s.data ++ t.data := rfl

/-- Output paths of records with different id strings differ. -/
theorem outPath_inj {c₁ c₂ : Card} (h : idString c₁ ≠ idString c₂) :
    outPath c₁ ≠ outPath c₂ := by
  intro he
  apply h
  have hd := congrArg String.data he
  simp only [outPath, data_append_eq, List.append_assoc] at hd
  exact string_data_inj (List.append_cancel_right (List.append_cancel_left hd))

/-- C7: with one valid CSV record and one valid JSON record of distinct
ids, the combined sequence is the CSV record then the JSON record, the
build writes exactly their two detail pages in that order at distinct
paths, the index tiles list both with the CSV tile first, and the index
count is 2. -/
theorem c7_csv_first (render : Card → String) (c₁ c₂ : Card)
    (h₁ : validateCard c₁ = []) (h₂ : validateCard c₂ = [])
    (hid : idString c₁ ≠ idString c₂) :
    combineCards [c₁] [c₂] = [c₁, c₂] ∧
    (buildOutputs render (combineCards [c₁] [c₂])).writes =
      [(outPath c₁, render c₁), (outPath c₂, render c₂)] ∧
    (buildOutputs render (combineCards [c₁] [c₂])).tiles = [tileOf c₁, tileOf c₂] ∧
    outPath c₁ ≠ outPath c₂ ∧
    indexCount render (combineCards [c₁] [c₂]) = 2 := by
  refine ⟨rfl, ?_, ?_, outPath_inj hid, ?_⟩ <;>
    simp [combineCards, buildOutputs, buildStep, indexCount, h₁, h₂]

/-- A valid CSV-origin record. -/
def exCsv : Card :=
  { origin := .csv, id := .str "A",
    images_front := .str "/cards/a-f.jpg", images_back := .str "/cards/a-b.jpg" }

/-- A valid JSON-origin record with a different id. -/
def exJson : Card :=
  { origin := .json, id := .str "B",
    images_front := .str "/cards/b-f.jpg", images_back := .str "/cards/b-b.jpg" }

/-- C7 witness at the concrete pair. -/
theorem c7_csv_first_witness :
    (buildOutputs (fun _ => "page") (combineCards [exCsv] [exJson])).tiles =
      [tileOf exCsv, tileOf exJson] :=
  (c7_csv_first (fun _ => "page") exCsv exJson (by decide) (by decide) (by decide)).2.2.1

/-! ## Claim C8 -/

/-- C8: a parse failure of the aggregate data/cards.json is fatal,
surfacing as the error outcome carrying the parse error and the
300-character content preview; with no aggregate file, a failing
fallback file is skipped and loading continues exactly as if that file
were not there. -/
theorem c8_json_parse_failures (fs : JsonFS) :
    (∀ raw e, fs.aggregate = some (raw, Except.error e) →
      loadJSONCards fs = Except.error (e, raw.take 300)) ∧
    (∀ pre post bad, fs.aggregate = none →
      fs.fallback = pre ++ Except.error bad :: post →
      loadJSONCards fs = loadJSONCards { aggregate := none, fallback := pre ++ post }) := by
  constructor
  · intro raw e h
    unfold loadJSONCards
    rw [h]
  · intro pre post bad hagg hfb
    unfold loadJSONCards
    rw [hagg, hfb]
    rw [List.foldl_append, List.foldl_append, List.foldl_cons]

/-- C8 witness at a concrete filesystem. -/
theorem c8_json_parse_failures_witness :
    loadJSONCards { aggregate := some ("oops", Except.error "bad"), fallback := [] } =
      Except.error ("bad", "oops".take 300) ∧
    loadJSONCards { aggregate := none, fallback := [Except.error "bad"] } =
      loadJSONCards { aggregate := none, fallback := [] } :=
  ⟨(c8_json_parse_failures _).1 "oops" "bad" rfl,
    (c8_json_parse_failures _).2 [] [] "bad" rfl rfl⟩

/-! ## Claim C10 -/

/-- Trimming the empty string gives the empty string. -/
theorem trim_empty_str : ("" : String).trim = "" := by with_unfolding_all decide

/-- The CSV image fallback never leaves an empty string. -/
theorem csvImg_ne_empty (v : Option String) (ph : String) (hph : ph ≠ "") :
    csvImg v ph ≠ "" := by
  unfold csvImg
  cases v with
  | none => exact hph
  | some s =>
    show (if s.trim ≠ "" then s else ph) ≠ ""
    by_cases hs : s.trim ≠ ""
    · rw [if_pos hs]
      intro contra
      subst contra
      exact hs trim_empty_str
    · rw [if_neg hs]
      exact hph

/-- C10: a CSV row whose id column is absent or blank becomes the
record id UNKNOWN, which passes validation (CSV records always carry
truthy image references thanks to the placeholders) and is written to
cards/UNKNOWN.html; two such rows produce the same output path, the
second write overwriting the first. -/
theorem c10_unknown_id (render : Card → String) (today : String) (r r2 : CsvRow)
    (h : r.id = none ∨ (r.id.getD "").trim = "")
    (h2 : r2.id = none ∨ (r2.id.getD "").trim = "") :
    (csvRowToCard today r).id = JVal.str "UNKNOWN" ∧
    validateCard (csvRowToCard today r) = [] ∧
    outPath (csvRowToCard today r) = "cards/UNKNOWN.html" ∧
    (buildOutputs render [csvRowToCard today r]).writes =
      [("cards/UNKNOWN.html", render (csvRowToCard today r))] ∧
    outPath (csvRowToCard today r2) = outPath (csvRowToCard today r) := by
  have hid : ∀ rr : CsvRow, rr.id = none ∨ (rr.id.getD "").trim = "" → csvRowId rr = "UNKNOWN" := by
    intro rr hrr
    unfold csvRowId
    rcases hrr with hrr | hrr <;> simp [hrr, trim_empty_str]
  have hval : ∀ rr : CsvRow, csvRowId rr = "UNKNOWN" →
      validateCard (csvRowToCard today rr) = [] := by
    intro rr hrr
    unfold validateCard csvRowToCard
    rw [hrr]
    simp [jvOr, jsTruthy,
      csvImg_ne_empty rr.front_img "https://via.placeholder.com/420x588?text=Front" (by decide),
      csvImg_ne_empty rr.back_img "https://via.placeholder.com/420x588?text=Back" (by decide)]
  have hpath : ∀ rr : CsvRow, csvRowId rr = "UNKNOWN" →
      outPath (csvRowToCard today rr) = "cards/UNKNOWN.html" := by
    intro rr hrr
    have hcid : (csvRowToCard today rr).id = JVal.str "UNKNOWN" := by
      unfold csvRowToCard
      rw [hrr]
    unfold outPath idString
    rw [hcid]
    rfl
  refine ⟨?_, hval r (hid r h), hpath r (hid r h), ?_, ?_⟩
  · unfold csvRowToCard
    rw [hid r h]
  · unfold buildOutputs
    rw [List.foldl_cons]
    rw [buildStep, if_pos (hval r (hid r h)), hpath r (hid r h)]
    rfl
  · rw [hpath r (hid r h), hpath r2 (hid r2 h2)]

/-- A CSV row with a blank id column but a front image given. -/
def exRow1 : CsvRow := { id := some "", front_img := some "card1.jpg" }

/-- A CSV row with no id column at all. -/
def exRow2 : CsvRow := { id := none, player := some "Someone" }

/-- C10 witness at the two concrete rows. -/
theorem c10_unknown_id_witness :
    outPath (csvRowToCard "2026-01-01" exRow1) = "cards/UNKNOWN.html" ∧
    outPath (csvRowToCard "2026-01-01" exRow2) = outPath (csvRowToCard "2026-01-01" exRow1) :=
  ⟨(c10_unknown_id (fun _ => "page") "2026-01-01" exRow1 exRow2
      (Or.inr (by with_unfolding_all decide)) (Or.inl rfl)).2.2.1,
    (c10_unknown_id (fun _ => "page") "2026-01-01" exRow1 exRow2
      (Or.inr (by with_unfolding_all decide)) (Or.inl rfl)).2.2.2.2⟩

/-! ## Claim C9: supporting lemmas -/

/-- digitOf produces digit characters below ten. -/
theorem digitOf_isDigit {n : Nat} (h : n < 10) : (digitOf n).isDigit = true := by
  interval_cases n <;> decide

/-- digitVal inverts digitOf below ten. -/
theorem digitVal_digitOf {n : Nat} (h : n < 10) : digitVal (digitOf n) = n := by
  interval_cases n <;> decide

/-- digitsVal of a list extended by one digit. -/
theorem digitsVal_append_one (xs : List Char) (c : Char) :
    digitsVal (xs ++ [c]) = 10 * digitsVal xs + digitVal c := by
  simp [digitsVal, List.foldl_append]

/-- With enough fuel, natDecAux emits a non-empty all-digit list whose
value is the number itself. -/
theorem natDecAux_spec :
    ∀ fuel n, n < fuel →
      natDecAux fuel n ≠ [] ∧ (∀ c ∈ natDecAux fuel n, c.isDigit = true) ∧
      digitsVal (natDecAux fuel n) = n := by
  intro fuel
  induction fuel with
  | zero => intro n h; omega
  | succ f ih =>
    intro n h
    by_cases hn : n < 10
    · refine ⟨by simp [natDecAux, hn], ?_, ?_⟩
      · intro c hc
        simp [natDecAux, hn] at hc
        subst hc
        exact digitOf_isDigit hn
      · simp [natDecAux, hn, digitsVal, digitVal_digitOf hn]
    · have hdiv : n / 10 < f := by
        have h1 : n / 10 < n := Nat.div_lt_self (by omega) (by omega)
        omega
      obtain ⟨hne, hdg, hval⟩ := ih (n / 10) hdiv
      refine ⟨by simp [natDecAux, hn], ?_, ?_⟩
      · intro c hc
        simp [natDecAux, hn] at hc
        rcases hc with hc | hc
        · exact hdg c hc
        · subst hc
          exact digitOf_isDigit (Nat.mod_lt n (by omega))
      · have : natDecAux (f + 1) n = natDecAux f (n / 10) ++ [digitOf (n % 10)] := by
          simp [natDecAux, hn]
        rw [this, digitsVal_append_one, hval, digitVal_digitOf (Nat.mod_lt n (by omega))]
        omega

/-- natDecChars facts: non-empty, all digits, value-faithful. -/
theorem natDecChars_spec (n : Nat) :
    natDecChars n ≠ [] ∧ (∀ c ∈ natDecChars n, c.isDigit = true) ∧
    digitsVal (natDecChars n) = n :=
  natDecAux_spec (n + 1) n (Nat.lt_succ_self n)

/-- takeWhile and dropWhile split exactly at the first failing
character. -/
theorem takeWhile_exact (p : Char → Bool) (ds : List Char) (b : Char) (t : List Char)
    (hds : ∀ c ∈ ds, p c = true) (hb : p b = false) :
    (ds ++ b :: t).takeWhile p = ds ∧ (ds ++ b :: t).dropWhile p = b :: t := by
  induction ds with
  | nil => simp [List.takeWhile_cons, List.dropWhile_cons, hb]
  | cons d ds ih =>
    have hd : p d = true := hds d (by simp)
    have hrest := ih (fun c hc => hds c (by simp [hc]))
    simp [List.takeWhile_cons, List.dropWhile_cons, hd, hrest.1, hrest.2]

/-- parseKeyChars reads back exactly a quote-free key. -/
theorem parseKeyChars_round (k : List Char) (rest : List Char)
    (hk : ∀ c ∈ k, c ≠ '"') :
    parseKeyChars (k ++ '"' :: rest) = some (k, rest) := by
  induction k with
  | nil => simp [parseKeyChars]
  | cons c k ih =>
    have hc : c ≠ '"' := hk c (by simp)
    simp [parseKeyChars, hc, ih (fun x hx => hk x (by simp [hx]))]

/-- The stringified entries of one entry reassociated for parsing. -/
theorem entryChars1_reshape (kv : String × Nat) (t : List Char) :
    entryChars1 kv ++ t =
      '"' :: (kv.1.data ++ '"' :: ':' :: (natDecChars kv.2 ++ t)) := by
  simp [entryChars1]

/-- parseEntries reads the stringified entries back exactly. -/
theorem parseEntries_round :
    ∀ (fuel : Nat) (d : DistMap), d ≠ [] → d.length ≤ fuel →
      (∀ kv ∈ d, cleanKey kv.1) → ∀ tail,
      parseEntries fuel (entriesChars d ++ '}' :: tail) = some (d, tail) := by
  intro fuel
  induction fuel with
  | zero =>
    intro d hne hlen
    cases d with
    | nil => exact absurd rfl hne
    | cons kv rest => simp at hlen
  | succ f ih =>
    intro d hne hlen hclean tail
    cases d with
    | nil => exact absurd rfl hne
    | cons kv rest =>
      have hkey : ∀ c ∈ kv.1.data, c ≠ '"' :=
        fun c hc => (hclean kv (by simp) c hc).1
      obtain ⟨hdne, hddg, hdval⟩ := natDecChars_spec kv.2
      cases rest with
      | nil =>
        have htd := takeWhile_exact Char.isDigit (natDecChars kv.2) '}' tail hddg (by decide)
        have hre : entriesChars [kv] ++ '}' :: tail =
            '"' :: (kv.1.data ++ '"' :: ':' :: (natDecChars kv.2 ++ '}' :: tail)) :=
          entryChars1_reshape kv ('}' :: tail)
        rw [hre]
        simp only [parseEntries, parseKeyChars_round kv.1.data _ hkey, htd.1, htd.2, hdne,
          if_neg hdne]
        simp [hdval]
      | cons kv2 rest2 =>
        have htd := takeWhile_exact Char.isDigit (natDecChars kv.2) ','
          (entriesChars (kv2 :: rest2) ++ '}' :: tail) hddg (by decide)
        have hre : entriesChars (kv :: kv2 :: rest2) ++ '}' :: tail =
            '"' :: (kv.1.data ++ '"' :: ':' ::
              (natDecChars kv.2 ++ ',' :: (entriesChars (kv2 :: rest2) ++ '}' :: tail))) := by
          have : entriesChars (kv :: kv2 :: rest2) =
              entryChars1 kv ++ ',' :: entriesChars (kv2 :: rest2) := rfl
          rw [this]
          simpa [List.append_assoc] using
            entryChars1_reshape kv (',' :: (entriesChars (kv2 :: rest2) ++ '}' :: tail))
        rw [hre]
        have hrec := ih (kv2 :: rest2) (by simp) (by simp at hlen ⊢; omega)
          (fun x hx => hclean x (by simp [hx])) tail
        simp only [parseEntries, parseKeyChars_round kv.1.data _ hkey, htd.1, htd.2,
          if_neg hdne, hrec]
        simp [hdval]

/-- The stringified entry list of a non-empty mapping starts with a
quote. -/
theorem entriesChars_cons_head (kv : String × Nat) (rest : DistMap) :
    ∃ l, entriesChars (kv :: rest) = '"' :: l := by
  cases rest <;> exact ⟨_, rfl⟩

/-- Entry count never exceeds one more than the character count of the
stringified entries. -/
theorem entriesChars_length : ∀ d : DistMap, d.length ≤ (entriesChars d).length + 1 := by
  intro d
  induction d with
  | nil => simp
  | cons kv rest ih =>
    cases rest with
    | nil => simp
    | cons kv2 rest2 =>
      have : entriesChars (kv :: kv2 :: rest2) =
          entryChars1 kv ++ ',' :: entriesChars (kv2 :: rest2) := rfl
      rw [this]
      simp only [List.length_cons, List.length_append] at ih ⊢
      omega

/-- Round trip of the modelled JSON.stringify and JSON.parse on any
mapping with clean keys. -/
theorem jsonParse_stringify (d : DistMap) (hclean : ∀ kv ∈ d, cleanKey kv.1) :
    jsonParse (jsonStringify d) = some d := by
  cases d with
  | nil => rfl
  | cons kv rest =>
    obtain ⟨l, hl⟩ := entriesChars_cons_head kv rest
    have hlen : (kv :: rest).length ≤ ('"' :: (l ++ ['}'])).length := by
      have h1 := entriesChars_length (kv :: rest)
      rw [hl] at h1
      simp at h1 ⊢
      omega
    have hstr : entriesChars (kv :: rest) ++ '}' :: ([] : List Char) =
        '"' :: (l ++ ['}']) := by
      rw [hl]; simp
    have hmain := parseEntries_round ('"' :: (l ++ ['}'])).length (kv :: rest) (by simp)
      (by exact hlen) hclean []
    rw [hstr] at hmain
    show jsonParse ⟨'{' :: entriesChars (kv :: rest) ++ ['}']⟩ = some (kv :: rest)
    rw [hl]
    show jsonParse ⟨'{' :: '"' :: (l ++ ['}'])⟩ = some (kv :: rest)
    unfold jsonParse
    simp only [if_pos rfl]
    rw [if_neg (by decide : ¬ ('"' : Char) = '}')]
    rw [hmain]
    simp

/-- The replace scan leaves a brace-free text unchanged. -/
theorem tplGo_no_brace (m : String → Option String) :
    ∀ (cs : List Char) (fuel : Nat), cs.length ≤ fuel →
      (∀ c ∈ cs, c ≠ '{') → tplGo m fuel cs = cs := by
  intro cs
  induction cs with
  | nil => intro fuel _ _; cases fuel <;> rfl
  | cons c cs ih =>
    intro fuel hlen hb
    cases fuel with
    | zero => simp at hlen
    | succ f =>
      have hc : c ≠ '{' := hb c (by simp)
      simp only [tplGo, if_neg hc]
      rw [ih f (by simp at hlen; omega) (fun x hx => hb x (by simp [hx]))]

/-- The replace scan transports over a brace-free prefix. -/
theorem tplGo_pre_transport (m : String → Option String) :
    ∀ (pre rest : List Char) (fuel : Nat), pre.length + rest.length ≤ fuel →
      (∀ c ∈ pre, c ≠ '{') →
      tplGo m fuel (pre ++ rest) = pre ++ tplGo m (fuel - pre.length) rest := by
  intro pre
  induction pre with
  | nil => intro rest fuel _ _; simp
  | cons c pre ih =>
    intro rest fuel hlen hb
    cases fuel with
    | zero => simp at hlen
    | succ f =>
      have hc : c ≠ '{' := hb c (by simp)
      simp only [List.cons_append, tplGo, if_neg hc, List.append_eq]
      rw [ih rest f (by simp at hlen; omega) (fun x hx => hb x (by simp [hx]))]
      simp [Nat.succ_sub_succ]

/-- The replace scan resolves a placeholder at the head of the input:
the mapped value is emitted and the scan continues after the closing
braces. -/
theorem tplGo_placeholder (m : String → Option String) (w cs : List Char) (fuel : Nat)
    (hw : ∀ c ∈ w, isWordChar c = true) (hne : w ≠ []) :
    tplGo m (fuel + 1) ('{' :: '{' :: (w ++ '}' :: '}' :: cs)) =
      ((m ⟨w⟩).getD "").data ++ tplGo m fuel cs := by
  have htd := takeWhile_exact isWordChar w '}' ('}' :: cs) hw (by decide)
  simp only [tplGo, if_pos rfl, htd.1, htd.2, if_neg hne]
  simp

/-- C9: substituting the compare_json placeholder embeds the stringified
compare.distribution mapping verbatim in the page (the replace scan
never rescans or alters the substituted text), and parsing that
embedded JSON yields the original mapping unchanged. The surrounding
page text is brace-free and the mapping keys contain no characters
needing JSON escapes. -/
theorem c9_compare_json_roundtrip (d : DistMap) (pre post : String)
    (m : String → Option String)
    (hd : ∀ kv ∈ d, cleanKey kv.1)
    (hpre : ∀ c ∈ pre.data, c ≠ '{')
    (hpost : ∀ c ∈ post.data, c ≠ '{')
    (hm : m "compare_json" = some (jsonStringify d)) :
    tpl (pre ++ "\x7b\x7bcompare_json\x7d\x7d" ++ post) m =
      pre ++ jsonStringify d ++ post ∧
    jsonParse (jsonStringify d) = some d := by
  refine ⟨?_, jsonParse_stringify d hd⟩
  apply string_data_inj
  have hm2 : m ⟨("compare_json").data⟩ = some (jsonStringify d) := hm
  have hw : ∀ c ∈ ("compare_json").data, isWordChar c = true := by decide
  have hwne : ("compare_json").data ≠ [] := by decide
  have hsplit : (pre ++ "\x7b\x7bcompare_json\x7d\x7d" ++ post).data =
      pre.data ++ ('{' :: '{' :: (("compare_json").data ++ '}' :: '}' :: post.data)) := by
    rw [data_append_eq, data_append_eq]
    rw [show ("\x7b\x7bcompare_json\x7d\x7d" : String).data =
        '{' :: '{' :: (("compare_json").data ++ ['}', '}']) from rfl]
    simp
  have hrestlen : ('{' :: '{' :: (("compare_json").data ++ '}' :: '}' :: post.data)).length =
      ("compare_json").data.length + 4 + post.data.length := by
    simp [List.length_append, List.length_cons]
    omega
  show tplGo m ((pre ++ "\x7b\x7bcompare_json\x7d\x7d" ++ post).data.length + 1)
      (pre ++ "\x7b\x7bcompare_json\x7d\x7d" ++ post).data =
    (pre ++ jsonStringify d ++ post).data
  rw [hsplit]
  rw [tplGo_pre_transport m pre.data _ _
    (by simp [List.length_append, hrestlen]) hpre]
  have hfuel : pre.data.length +
        ('{' :: '{' :: (("compare_json").data ++ '}' :: '}' :: post.data)).length + 1 -
        pre.data.length =
      (("compare_json").data.length + 4 + post.data.length) + 1 := by
    rw [hrestlen]; omega
  rw [List.length_append, hfuel]
  rw [tplGo_placeholder m ("compare_json").data post.data _ hw hwne]
  rw [hm2]
  rw [tplGo_no_brace m post.data _ (by omega) hpost]
  rw [data_append_eq, data_append_eq]
  simp

/-- A concrete comparison distribution. -/
def exDist : DistMap := [("9.5", 3), ("10", 1)]

/-- A concrete placeholder map carrying the stringified distribution. -/
def exMap : String → Option String :=
  fun k => if k = "compare_json" then some (jsonStringify exDist) else none

/-- C9 witness at the concrete distribution, template and map. -/
theorem c9_compare_json_roundtrip_witness :
    tpl ("<script>" ++ "\x7b\x7bcompare_json\x7d\x7d" ++ "</script>") exMap =
      "<script>" ++ jsonStringify exDist ++ "</script>" ∧
    jsonParse (jsonStringify exDist) = some exDist :=
  c9_compare_json_roundtrip exDist "<script>" "</script>" exMap
    (by decide) (by decide) (by decide) rfl
